import Mathlib

/-!
Verification of the synth_proto DSP core against its specification.

Each section shallowly embeds one component of the TypeScript source
(oscillator, noise generator, envelope, ladder filter, voice pan law,
long reverb, engine) as Lean definitions over exact arithmetic, and the
theorems settle the spec claims about them.  JavaScript numbers are
modelled as real numbers; Math.random() streams become explicit input
streams of values in [0, 1).
-/

namespace SynthProto

open Real

noncomputable section

/-! ## LadderFilter (src/src/worklet/filter.ts) -/

inductive FilterType
  | lp24
  | lp12
  | bp
  | hp
deriving DecidableEq

/-- State of the ladder filter class (src/src/worklet/filter.ts, lines 8-32).
The four cascade stages are stage0..stage3; stageTemp is declared in the
source but never read or written, so it is omitted. -/
structure LadderFilter where
  sampleRate : ℝ
  stage0 : ℝ
  stage1 : ℝ
  stage2 : ℝ
  stage3 : ℝ
  cutoff : ℝ
  resonance : ℝ
  drive : ℝ
  filterType : FilterType
  smoothedCutoff : ℝ
  smoothingCoeff : ℝ
  g : ℝ
  k : ℝ

/-- updateCoefficients (filter.ts lines 52-63): g = tan(pi * min(fc, 0.49)),
k = resonance * 4. -/
def LadderFilter.updateCoefficients (f : LadderFilter) : LadderFilter :=
  let fc := f.smoothedCutoff / f.sampleRate
  let fcClamped := min fc 0.49
  { f with g := Real.tan (π * fcClamped), k := f.resonance * 4 }

/-- Constructor (filter.ts lines 29-32) with the field defaults of lines 12-27. -/
def mkLadderFilter (sampleRate : ℝ) : LadderFilter :=
  LadderFilter.updateCoefficients
    { sampleRate := sampleRate
      stage0 := 0, stage1 := 0, stage2 := 0, stage3 := 0
      cutoff := 1000, resonance := 0, drive := 1
      filterType := FilterType.lp24
      smoothedCutoff := 1000, smoothingCoeff := 0.999
      g := 0, k := 0 }

/-- setCutoff (filter.ts lines 34-36). -/
def LadderFilter.setCutoff (f : LadderFilter) (freq : ℝ) : LadderFilter :=
  { f with cutoff := max 20 (min freq (f.sampleRate * 0.49)) }

/-- setResonance (filter.ts lines 38-42). -/
def LadderFilter.setResonance (f : LadderFilter) (res : ℝ) : LadderFilter :=
  let r := max 0 (min res 1)
  { f with resonance := r, k := r * 4 }

/-- setDrive (filter.ts lines 44-46). -/
def LadderFilter.setDrive (f : LadderFilter) (drive : ℝ) : LadderFilter :=
  { f with drive := max 0.1 (min drive 5) }

/-- softClip (filter.ts lines 68-73). -/
def softClip (x : ℝ) : ℝ :=
  if x > 1 then 1 - 1 / (x * x + 1)
  else if x < -1 then -1 + 1 / (x * x + 1)
  else x - x * x * x / 3

/-- process (filter.ts lines 78-138): smooth the cutoff, update coefficients,
apply drive and resonance feedback, soft-clip the input, run the four
one-pole stages with the double-sample update, select the output tap, and
soft-clip the output.  Returns (output, new state). -/
def LadderFilter.process (f : LadderFilter) (input : ℝ) : ℝ × LadderFilter :=
  let f1 := { f with smoothedCutoff :=
      f.smoothedCutoff * f.smoothingCoeff + f.cutoff * (1 - f.smoothingCoeff) }
  let f2 := f1.updateCoefficients
  let x0 := input * f2.drive
  let feedback := f2.stage3 * f2.k
  let x1 := x0 - feedback
  let x2 := softClip x1
  let G := f2.g / (1 + f2.g)
  let v0 := G * (x2 - f2.stage0)
  let s0 := f2.stage0 + v0 + v0
  let v1 := G * (s0 - f2.stage1)
  let s1 := f2.stage1 + v1 + v1
  let v2 := G * (s1 - f2.stage2)
  let s2 := f2.stage2 + v2 + v2
  let v3 := G * (s2 - f2.stage3)
  let s3 := f2.stage3 + v3 + v3
  let output :=
    match f2.filterType with
    | FilterType.lp24 => s3
    | FilterType.lp12 => s1
    | FilterType.bp => s1 - s3
    | FilterType.hp => input - s3
  (softClip output, { f2 with stage0 := s0, stage1 := s1, stage2 := s2, stage3 := s3 })

/-- Feeding a whole input list through the filter, collecting the outputs. -/
def LadderFilter.run (f : LadderFilter) : List ℝ → List ℝ
  | [] => []
  | i :: is =>
    let r := f.process i
    r.1 :: r.2.run is

/-- The soft clipper never leaves (-1, 1): for x above 1 it returns
1 - 1/(x^2+1), for x below -1 the mirror image, and on [-1, 1] the cubic
x - x^3/3 whose range is [-2/3, 2/3]. -/
theorem abs_softClip_le_one (x : ℝ) : |softClip x| ≤ 1 := by
  rw [softClip]
  rcases lt_trichotomy 1 x with h | h | h
  · rw [if_pos h]
    have hx : (0:ℝ) < x * x + 1 := by nlinarith
    have h1 : 1 / (x * x + 1) < 1 := by
      rw [div_lt_one hx]; nlinarith
    have h2 : 0 < 1 / (x * x + 1) := by positivity
    rw [abs_le]; constructor <;> nlinarith
  · rw [if_neg (by simp [h]), if_neg (by rw [← h]; norm_num)]
    rw [← h]; norm_num [abs_le]
  · rw [if_neg (by linarith)]
    by_cases h2 : x < -1
    · rw [if_pos h2]
      have hx : (0:ℝ) < x * x + 1 := by nlinarith
      have h1 : 1 / (x * x + 1) < 1 := by
        rw [div_lt_one hx]; nlinarith
      have h3 : 0 < 1 / (x * x + 1) := by positivity
      rw [abs_le]; constructor <;> nlinarith
    · rw [if_neg h2]
      push_neg at h2
      rw [abs_le]
      constructor
      · nlinarith [mul_nonneg (sq_nonneg (x + 1)) (by linarith : (0:ℝ) ≤ 2 - x)]
      · nlinarith [mul_nonneg (sq_nonneg (x - 1)) (by linarith : (0:ℝ) ≤ x + 2)]

/-- Every sample produced by process is a soft-clipped value, hence has
magnitude at most 1, for any filter state whatsoever. -/
theorem LadderFilter.abs_process_fst_le_one (f : LadderFilter) (input : ℝ) :
    |(f.process input).1| ≤ 1 := by
  rw [LadderFilter.process]
  exact abs_softClip_le_one _

/-- Every output in a run is bounded by 1 in magnitude, from any state. -/
theorem LadderFilter.abs_run_le_one (f : LadderFilter) (ins : List ℝ) :
    ∀ y ∈ f.run ins, |y| ≤ 1 := by
  induction ins generalizing f with
  | nil => intro y hy; simp [LadderFilter.run] at hy
  | cons i is ih =>
    intro y hy
    rw [LadderFilter.run] at hy
    rcases List.mem_cons.mp hy with h | h
    · rw [h]; exact f.abs_process_fst_le_one i
    · exact ih _ y h

/-- C1: from the initial all-zero filter state, with any cutoff in
(20, sampleRate * 0.49), resonance in [0, 1] and drive in [0.1, 5], every
output sample that process produces on a magnitude-bounded input sequence
has magnitude at most 2.0: the two soft-clip stages keep the returned
signal bounded. -/
theorem c1_filter_output_bounded (f : LadderFilter) (ins : List ℝ)
    (hs0 : f.stage0 = 0) (hs1 : f.stage1 = 0) (hs2 : f.stage2 = 0)
    (hs3 : f.stage3 = 0) (hsm : f.smoothingCoeff = 0.999)
    (hc1 : 20 < f.cutoff) (hc2 : f.cutoff < f.sampleRate * 0.49)
    (hr1 : 0 ≤ f.resonance) (hr2 : f.resonance ≤ 1)
    (hd1 : 0.1 ≤ f.drive) (hd2 : f.drive ≤ 5)
    (hin : ∀ x ∈ ins, |x| ≤ 1) :
    ∀ y ∈ f.run ins, |y| ≤ 2 := by
  intro y hy
  have h := f.abs_run_le_one ins y hy
  linarith

/-- Witness for c1_filter_output_bounded: the first output sample of a
concrete run is bounded by 2. -/
theorem c1_filter_output_bounded_witness :
    |((((mkLadderFilter 44100).setCutoff 1000).setResonance 0.5).process 1).1| ≤ 2 :=
  c1_filter_output_bounded
    (((mkLadderFilter 44100).setCutoff 1000).setResonance 0.5) [1, -1, 0.5]
    rfl rfl rfl rfl rfl
    (by show (20:ℝ) < max 20 (min 1000 (44100 * 0.49)); norm_num)
    (by show max 20 (min 1000 ((44100:ℝ) * 0.49)) < 44100 * 0.49; norm_num)
    (by show (0:ℝ) ≤ max 0 (min 0.5 1); norm_num)
    (by show max 0 (min (0.5:ℝ) 1) ≤ 1; norm_num)
    (by show (0.1:ℝ) ≤ 1; norm_num)
    (by show (1:ℝ) ≤ 5; norm_num)
    (by intro x hx
        simp only [List.mem_cons, List.not_mem_nil, or_false] at hx
        rcases hx with h | h | h <;> rw [h] <;> norm_num [abs_le])
    _ (List.mem_cons_self _ _)

/-- C6: the ladder filter setters clamp silently: setCutoff stores
max(20, min(x, sampleRate * 0.49)) so that setCutoff(-5) yields 20;
setResonance stores max(0, min(x, 1)) and k as 4 times that, so that
setResonance(5) yields resonance 1 and k 4. -/
theorem c6_filter_setters_clamp (f : LadderFilter) (x : ℝ) :
    (f.setCutoff x).cutoff = max 20 (min x (f.sampleRate * 0.49)) ∧
    (f.setResonance x).resonance = max 0 (min x 1) ∧
    (f.setResonance x).k = max 0 (min x 1) * 4 ∧
    (f.setCutoff (-5)).cutoff = 20 ∧
    (f.setResonance 5).resonance = 1 ∧
    (f.setResonance 5).k = 4 := by
  refine ⟨rfl, rfl, rfl, ?_, ?_, ?_⟩
  · show max 20 (min (-5) (f.sampleRate * 0.49)) = 20
    have h : min (-5 : ℝ) (f.sampleRate * 0.49) ≤ 20 :=
      le_trans (min_le_left _ _) (by norm_num)
    exact max_eq_left h
  · show max 0 (min (5:ℝ) 1) = 1
    norm_num
  · show max 0 (min (5:ℝ) 1) * 4 = 4
    norm_num

/-! ## Constant-power pan law (src/unnamed/part_005, VoiceProcessor.process) -/

/-- Pan angle from the smoothed pan value (part_005: panAngle =
(smoothedPan + 1) * Math.PI / 4). -/
def panAngle (smoothedPan : ℝ) : ℝ := (smoothedPan + 1) * π / 4

/-- Left channel gain (part_005: leftGain = Math.cos(panAngle)). -/
def panLeftGain (smoothedPan : ℝ) : ℝ := Real.cos (panAngle smoothedPan)

/-- Right channel gain (part_005: rightGain = Math.sin(panAngle)). -/
def panRightGain (smoothedPan : ℝ) : ℝ := Real.sin (panAngle smoothedPan)

/-- C7: the constant-power pan law gives equal left and right gains at
pan 0 (both cos(pi/4)), and right gain 1 with left gain 0 at pan +1. -/
theorem c7_constant_power_pan :
    panLeftGain 0 = panRightGain 0 ∧
    panRightGain 1 = 1 ∧ panLeftGain 1 = 0 := by
  have h0 : panAngle 0 = π / 4 := by rw [panAngle]; ring
  have h1 : panAngle 1 = π / 2 := by rw [panAngle]; ring
  refine ⟨?_, ?_, ?_⟩
  · rw [panLeftGain, panRightGain, h0, Real.cos_pi_div_four, Real.sin_pi_div_four]
  · rw [panRightGain, h1, Real.sin_pi_div_two]
  · rw [panLeftGain, h1, Real.cos_pi_div_two]

/-! ## Oscillator (src/src/worklet/oscillator.ts) -/

inductive WaveType
  | sine
  | triangle
  | saw
  | square
deriving DecidableEq

/-- State of the PolyBLEP oscillator (oscillator.ts lines 8-16). -/
structure Oscillator where
  phase : ℝ
  sampleRate : ℝ
  frequency : ℝ
  waveType : WaveType

/-- setFrequency (oscillator.ts lines 18-20): clamp to [0.01, sampleRate/2]. -/
def Oscillator.setFrequency (o : Oscillator) (freq : ℝ) : Oscillator :=
  { o with frequency := max 0.01 (min freq (o.sampleRate / 2)) }

/-- polyBlep (oscillator.ts lines 30-40). -/
def polyBlep (t dt : ℝ) : ℝ :=
  if t < dt then
    let x := t / dt
    x + x - x * x - 1
  else if t > 1 - dt then
    let x := (t - 1) / dt
    x * x + x + x + 1
  else 0

/-- JavaScript (x % 1) for nonnegative x: the fractional part. -/
def fmod1 (x : ℝ) : ℝ := Int.fract x

/-- The sample next() computes before advancing the phase (oscillator.ts
lines 45-79).  The triangle branch's unused local sq is dropped. -/
def Oscillator.sampleAt (o : Oscillator) : ℝ :=
  let dt := o.frequency / o.sampleRate
  match o.waveType with
  | WaveType.sine => Real.sin (o.phase * 2 * π)
  | WaveType.saw => (2 * o.phase - 1) - polyBlep o.phase dt
  | WaveType.square =>
      (if o.phase < 0.5 then (1 : ℝ) else -1)
        + polyBlep o.phase dt - polyBlep (fmod1 (o.phase + 0.5)) dt
  | WaveType.triangle =>
      (2 * |2 * o.phase - 1| - 1)
        + (polyBlep o.phase dt - polyBlep (fmod1 (o.phase + 0.5)) dt) * dt * 4

/-- next() (oscillator.ts lines 45-88): produce the sample, then advance the
phase by dt, wrapping at 1. -/
def Oscillator.next (o : Oscillator) : ℝ × Oscillator :=
  let dt := o.frequency / o.sampleRate
  let p := o.phase + dt
  (o.sampleAt, { o with phase := if p ≥ 1 then p - 1 else p })

/-- On the first half of the cycle the PolyBLEP correction lies in [-1, 0]:
only the left branch -(t/dt - 1)^2 can fire there. -/
theorem polyBlep_left_bounds (t dt : ℝ) (h0 : 0 ≤ t) (h1 : t < 1 / 2)
    (hd0 : 0 < dt) (hd1 : dt ≤ 1 / 2) :
    -1 ≤ polyBlep t dt ∧ polyBlep t dt ≤ 0 := by
  rw [polyBlep]
  by_cases h : t < dt
  · rw [if_pos h]
    have hx0 : 0 ≤ t / dt := div_nonneg h0 hd0.le
    have hx1 : t / dt < 1 := (div_lt_one hd0).mpr h
    constructor <;> nlinarith [sq_nonneg (t / dt - 1)]
  · rw [if_neg h, if_neg (not_lt.mpr (by linarith))]
    norm_num

/-- On the second half of the cycle the PolyBLEP correction lies in [0, 1]:
only the right branch ((t-1)/dt + 1)^2 can fire there. -/
theorem polyBlep_right_bounds (t dt : ℝ) (h0 : 1 / 2 ≤ t) (h1 : t < 1)
    (hd0 : 0 < dt) (hd1 : dt ≤ 1 / 2) :
    0 ≤ polyBlep t dt ∧ polyBlep t dt ≤ 1 := by
  rw [polyBlep]
  rw [if_neg (not_lt.mpr (by linarith))]
  by_cases h : t > 1 - dt
  · rw [if_pos h]
    have hx0 : (t - 1) / dt ≤ 0 :=
      div_nonpos_of_nonpos_of_nonneg (by linarith) hd0.le
    have hx1 : -1 < (t - 1) / dt := (lt_div_iff₀ hd0).mpr (by linarith)
    constructor <;> nlinarith [sq_nonneg ((t - 1) / dt + 1)]
  · rw [if_neg h]
    norm_num

theorem fmod1_of_lt_one (x : ℝ) (h0 : 0 ≤ x) (h1 : x < 1) : fmod1 x = x :=
  Int.fract_eq_self.mpr ⟨h0, h1⟩

theorem fmod1_add_half_of_ge_half (p : ℝ) (h0 : 1 / 2 ≤ p) (h1 : p < 1) :
    fmod1 (p + 0.5) = p - 0.5 := by
  rw [fmod1]
  rw [show (p + 0.5 : ℝ) = (p - 0.5) + (1 : ℤ) by push_cast; ring]
  rw [Int.fract_add_int]
  exact Int.fract_eq_self.mpr ⟨by linarith, by linarith⟩

/-- C2 (amended): for any oscillator state whose phase is in [0,1) and whose
frequency satisfies the setFrequency clamp bounds, next() returns a sample
in [-1,1] for the sine, saw and square wave types.  (The triangle wave can
overshoot this range at high frequency; see c2_counterexample.) -/
theorem c2_oscillator_output_in_unit_range (o : Oscillator)
    (hp0 : 0 ≤ o.phase) (hp1 : o.phase < 1)
    (hsr : 0 < o.sampleRate)
    (hf0 : 0.01 ≤ o.frequency) (hf1 : o.frequency ≤ o.sampleRate / 2)
    (hw : o.waveType ≠ WaveType.triangle) :
    -1 ≤ (o.next).1 ∧ (o.next).1 ≤ 1 := by
  obtain ⟨p, sr, fr, w⟩ := o
  simp only at hp0 hp1 hsr hf0 hf1 hw
  have hdt0 : 0 < fr / sr := div_pos (by linarith) hsr
  have hdt1 : fr / sr ≤ 1 / 2 := by
    rw [div_le_div_iff₀ hsr (by norm_num)]
    linarith
  simp only [Oscillator.next, Oscillator.sampleAt]
  cases w with
  | triangle => exact absurd rfl hw
  | sine =>
    exact ⟨Real.neg_one_le_sin _, Real.sin_le_one _⟩
  | saw =>
    by_cases hhalf : p < 1 / 2
    · have hb := polyBlep_left_bounds p (fr / sr) hp0 hhalf hdt0 hdt1
      constructor <;> [linarith [hb.2]; linarith [hb.1]]
    · have hb := polyBlep_right_bounds p (fr / sr) (not_lt.mp hhalf) hp1 hdt0 hdt1
      constructor <;> [linarith [hb.2]; linarith [hb.1]]
  | square =>
    by_cases hhalf : p < 0.5
    · rw [if_pos hhalf]
      have hm : fmod1 (p + 0.5) = p + 0.5 := by
        apply fmod1_of_lt_one
        · linarith
        · norm_num at hhalf; linarith
      rw [hm]
      have hA := polyBlep_left_bounds p (fr / sr) hp0 (by norm_num at hhalf; linarith)
        hdt0 hdt1
      have hB := polyBlep_right_bounds (p + 0.5) (fr / sr) (by norm_num; linarith)
        (by norm_num at hhalf; linarith) hdt0 hdt1
      constructor <;> [linarith [hA.1, hB.2]; linarith [hA.2, hB.1]]
    · rw [if_neg hhalf]
      push_neg at hhalf
      norm_num at hhalf
      have hm : fmod1 (p + 0.5) = p - 0.5 := fmod1_add_half_of_ge_half p hhalf hp1
      rw [hm]
      have hA := polyBlep_right_bounds p (fr / sr) hhalf hp1 hdt0 hdt1
      have hB := polyBlep_left_bounds (p - 0.5) (fr / sr) (by linarith)
        (by norm_num; linarith) hdt0 hdt1
      constructor <;> [linarith [hA.1, hB.2]; linarith [hA.2, hB.1]]

/-- Witness for c2_oscillator_output_in_unit_range at a concrete saw
oscillator. -/
theorem c2_oscillator_output_in_unit_range_witness :
    -1 ≤ (Oscillator.next ⟨0, 100, 45, WaveType.saw⟩).1 ∧
      (Oscillator.next ⟨0, 100, 45, WaveType.saw⟩).1 ≤ 1 :=
  c2_oscillator_output_in_unit_range ⟨0, 100, 45, WaveType.saw⟩
    (by norm_num) (by norm_num) (by norm_num) (by norm_num) (by norm_num)
    (by simp)

/-- The oscillator state refuting the original C2: triangle wave, sample
rate 100, frequency set through setFrequency(45) (inside the clamp range
(0.01, sampleRate/2)), phase 0.35 (in [0,1), reachable from phase 0 in
three next() calls at this frequency). -/
def c2osc : Oscillator :=
  Oscillator.setFrequency
    { phase := 0.35, sampleRate := 100, frequency := 440,
      waveType := WaveType.triangle } 45

/-- C2 (counterexample): at the state c2osc, which satisfies every
hypothesis of the claim, next() returns -58/45 < -1, outside [-1,1]: the
triangle PolyBLEP correction term scales with dt and overshoots. -/
theorem c2_counterexample : (c2osc.next).1 < -1 := by
  have hc : c2osc = ⟨0.35, 100, 45, WaveType.triangle⟩ := by
    simp only [c2osc, Oscillator.setFrequency, Oscillator.mk.injEq]
    norm_num
  have h1 : polyBlep 0.35 (45 / 100) = -(4 / 81) := by
    rw [polyBlep, if_pos (by norm_num : (0.35 : ℝ) < 45 / 100)]
    norm_num
  have h2 : polyBlep 0.85 (45 / 100) = 4 / 9 := by
    rw [polyBlep, if_neg (by norm_num), if_pos (by norm_num : (0.85 : ℝ) > 1 - 45 / 100)]
    norm_num
  have h3 : fmod1 ((0.35 : ℝ) + 0.5) = 0.85 := by
    rw [show ((0.35 : ℝ) + 0.5) = 0.85 by norm_num]
    exact fmod1_of_lt_one _ (by norm_num) (by norm_num)
  have habs : |2 * (0.35 : ℝ) - 1| = 0.3 := by
    rw [show 2 * (0.35 : ℝ) - 1 = -(0.3) by norm_num, abs_neg,
      abs_of_nonneg (by norm_num : (0 : ℝ) ≤ 0.3)]
  rw [hc]
  simp only [Oscillator.next, Oscillator.sampleAt]
  rw [h3, h1, h2, habs]
  norm_num

/-! ## Envelope (src/src/worklet/filter.ts, Envelope class) -/

inductive EnvelopeStage
  | idle
  | attack
  | decay
  | sustain
  | release
deriving DecidableEq

/-- State of the ADSR envelope class (filter.ts Envelope, lines 162-186). -/
structure Envelope where
  sampleRate : ℝ
  stage : EnvelopeStage
  value : ℝ
  targetValue : ℝ
  attack : ℝ
  decay : ℝ
  sustain : ℝ
  release : ℝ
  attackCoeff : ℝ
  decayCoeff : ℝ
  releaseCoeff : ℝ
  smoothedValue : ℝ
  smoothingCoeff : ℝ

/-- updateCoefficients (filter.ts lines 196-205): each coefficient is
exp(-1 / (time * sampleRate * 3)). -/
def Envelope.updateCoefficients (e : Envelope) : Envelope :=
  { e with
    attackCoeff := Real.exp (-1 / (e.attack * e.sampleRate * 3))
    decayCoeff := Real.exp (-1 / (e.decay * e.sampleRate * 3))
    releaseCoeff := Real.exp (-1 / (e.release * e.sampleRate * 3)) }

/-- Constructor (filter.ts lines 183-186) with the field defaults. -/
def mkEnvelope (sampleRate : ℝ) : Envelope :=
  Envelope.updateCoefficients
    { sampleRate := sampleRate
      stage := EnvelopeStage.idle
      value := 0, targetValue := 0
      attack := 0.01, decay := 0.1, sustain := 0.7, release := 0.3
      attackCoeff := 0, decayCoeff := 0, releaseCoeff := 0
      smoothedValue := 0, smoothingCoeff := 0.995 }

/-- setParams (filter.ts lines 188-194): optional fields, clamped, then the
coefficients are recomputed. -/
def Envelope.setParams (e : Envelope)
    (attack decay sustain release : Option ℝ) : Envelope :=
  let e := match attack with
    | some a => { e with attack := max 0.001 a }
    | none => e
  let e := match decay with
    | some d => { e with decay := max 0.001 d }
    | none => e
  let e := match sustain with
    | some s => { e with sustain := max 0 (min 1 s) }
    | none => e
  let e := match release with
    | some r => { e with release := max 0.001 r }
    | none => e
  e.updateCoefficients

/-- trigger (filter.ts lines 210-213). -/
def Envelope.trigger (e : Envelope) : Envelope :=
  { e with stage := EnvelopeStage.attack, targetValue := 1 }

/-- release_ (filter.ts lines 218-223). -/
def Envelope.release_ (e : Envelope) : Envelope :=
  if e.stage ≠ EnvelopeStage.idle then
    { e with stage := EnvelopeStage.release, targetValue := 0 }
  else e

/-- isFinished (filter.ts lines 238-240). -/
def Envelope.isFinished (e : Envelope) : Prop :=
  e.stage = EnvelopeStage.idle ∧ e.value < 0.0001

/-- next (filter.ts lines 252-299): advance one stage step, then apply the
output smoothing; returns (smoothed output, new state). -/
def Envelope.next (e : Envelope) : ℝ × Envelope :=
  let e1 : Envelope :=
    match e.stage with
    | EnvelopeStage.idle => { e with value := 0 }
    | EnvelopeStage.attack =>
      let v := e.targetValue - (e.targetValue - e.value) * e.attackCoeff
      if v ≥ 0.999 then
        { e with value := 1, stage := EnvelopeStage.decay, targetValue := e.sustain }
      else { e with value := v }
    | EnvelopeStage.decay =>
      let v := e.targetValue + (e.value - e.targetValue) * e.decayCoeff
      if |v - e.sustain| < 0.0001 then
        { e with value := e.sustain, stage := EnvelopeStage.sustain }
      else { e with value := v }
    | EnvelopeStage.sustain => { e with value := e.sustain }
    | EnvelopeStage.release =>
      let v := e.value * e.releaseCoeff
      if v < 0.0001 then { e with value := 0, stage := EnvelopeStage.idle }
      else { e with value := v }
  let e2 := { e1 with smoothedValue :=
      e1.smoothedValue * e1.smoothingCoeff + e1.value * (1 - e1.smoothingCoeff) }
  (e2.smoothedValue, e2)

/-- An envelope in the attack stage shortly after a retrigger: attack time
set to 1000 s at sample rate 1, with the residual smoothed output 1/2 left
over from the previous note (the smoothed value lags the raw value, so it
is still high right after a release fades the raw value to 0). -/
def c4env : Envelope :=
  Envelope.trigger
    { Envelope.setParams (mkEnvelope 1) (some 1000) none none none with
      smoothedValue := 1 / 2 }

/-- C4 (counterexample): from c4env, which is in the attack stage, the first
two next() calls both stay in the attack stage yet the second returned value
is strictly below the first: the returned (smoothed) output is not
non-decreasing during attack. -/
theorem c4_counterexample :
    c4env.stage = EnvelopeStage.attack ∧
    ((c4env.next).2).stage = EnvelopeStage.attack ∧
    ((((c4env.next).2).next).2).stage = EnvelopeStage.attack ∧
    (((c4env.next).2).next).1 < (c4env.next).1 := by
  have hc0 : c4env =
      ⟨1, EnvelopeStage.attack, 0, 1, max 0.001 1000, 0.1, 0.7, 0.3,
        Real.exp (-1 / (max 0.001 1000 * 1 * 3)), Real.exp (-1 / (0.1 * 1 * 3)),
        Real.exp (-1 / (0.3 * 1 * 3)), 1 / 2, 0.995⟩ := rfl
  have harg : (-1 / (max (0.001 : ℝ) 1000 * 1 * 3)) = -1 / 3000 := by
    rw [max_eq_right (by norm_num : (0.001 : ℝ) ≤ 1000)]
    norm_num
  have hc : c4env =
      ⟨1, EnvelopeStage.attack, 0, 1, max 0.001 1000, 0.1, 0.7, 0.3,
        Real.exp (-1 / 3000), Real.exp (-1 / (0.1 * 1 * 3)),
        Real.exp (-1 / (0.3 * 1 * 3)), 1 / 2, 0.995⟩ := by
    rw [hc0, harg]
  set a := Real.exp (-1 / 3000 : ℝ) with hadef
  have ha0 : 0 < a := Real.exp_pos _
  have ha1 : a < 1 := by
    rw [hadef]
    exact Real.exp_lt_one_iff.mpr (by norm_num)
  have ha2 : 1 - 1 / 3000 ≤ a := by
    have h := Real.add_one_le_exp (-1 / 3000 : ℝ)
    rw [hadef]
    linarith
  have hcond1 : ¬((1 : ℝ) - (1 - 0) * a ≥ 0.999) := by
    push_neg
    linarith
  have hcond2 : ¬((1 : ℝ) - (1 - (1 - (1 - 0) * a)) * a ≥ 0.999) := by
    push_neg
    nlinarith
  rw [hc]
  simp only [Envelope.next]
  rw [if_neg hcond1]
  dsimp only
  rw [if_neg hcond2]
  dsimp only
  refine ⟨?_, ?_, ?_, ?_⟩
  · trivial
  · trivial
  · trivial
  · nlinarith

/-- C4 (amended): while the stage is attack with target value 1 (as trigger
sets it) and an attack coefficient in [0,1] (it is exp of a negative
number), the internal envelope value is non-decreasing across next(); and
isFinished() is false whenever the value is at least the 0.0001 epsilon.
The returned (smoothed) output, by contrast, can transiently decrease right
after a retrigger, which is what the original claim fails on. -/
theorem c4_attack_monotone_and_isFinished :
    (∀ e : Envelope, e.stage = EnvelopeStage.attack → e.targetValue = 1 →
      e.value ≤ 1 → 0 ≤ e.attackCoeff → e.attackCoeff ≤ 1 →
      e.value ≤ ((e.next).2).value) ∧
    (∀ e : Envelope, 0.0001 < e.value → ¬ e.isFinished) := by
  constructor
  · intro e hs ht hv hc0 hc1
    obtain ⟨sr, st, v, tv, atk, dec, sus, rel, ac, dc, rc, sm, sc⟩ := e
    simp only at hs ht hv hc0 hc1
    subst hs
    subst ht
    simp only [Envelope.next]
    by_cases h : (1 : ℝ) - (1 - v) * ac ≥ 0.999
    · rw [if_pos h]
      dsimp only
      linarith
    · rw [if_neg h]
      dsimp only
      nlinarith
  · intro e hv hfin
    exact absurd hfin.2 (not_lt.mpr (by linarith))

/-- A concrete mid-attack envelope state used to witness the amended C4. -/
def c4wit : Envelope :=
  ⟨1, EnvelopeStage.attack, 1 / 2, 1, 0.01, 0.1, 0.7, 0.3, 1 / 2, 0, 0, 0, 0.995⟩

/-- Witness for c4_attack_monotone_and_isFinished at the state c4wit. -/
theorem c4_attack_monotone_and_isFinished_witness :
    c4wit.value ≤ ((c4wit.next).2).value ∧ ¬ c4wit.isFinished :=
  ⟨c4_attack_monotone_and_isFinished.1 c4wit rfl rfl (by norm_num [c4wit])
      (by norm_num [c4wit]) (by norm_num [c4wit]),
    c4_attack_monotone_and_isFinished.2 c4wit (by norm_num [c4wit])⟩

/-! ## NoiseGenerator (src/src/worklet/noise.ts)

Math.random() draws are modelled as explicit inputs in [0, 1): the
constructor and reset take one draw per row, and next takes the single
draw its branch consumes. -/

inductive NoiseType
  | off
  | white
  | pink
  | brown
deriving DecidableEq

/-- State of the noise generator (noise.ts lines 8-18); the sixteen pink
rows are a function from Fin 16. -/
structure NoiseGenerator where
  noiseType : NoiseType
  pinkRows : Fin 16 → ℝ
  pinkIndex : ℕ
  pinkRunningSum : ℝ
  brownLastValue : ℝ

/-- Constructor (noise.ts lines 19-25): each row is Math.random()*2-1 and
the running sum accumulates them. -/
def mkNoiseGenerator (rand : Fin 16 → ℝ) : NoiseGenerator :=
  { noiseType := NoiseType.off
    pinkRows := fun i => 2 * rand i - 1
    pinkIndex := 0
    pinkRunningSum := ∑ i : Fin 16, (2 * rand i - 1)
    brownLastValue := 0 }

/-- The trailing-zero count computed by the while loop of noise.ts lines
50-54: shift right while the value is positive and even. -/
def ctz (k : ℕ) : ℕ :=
  if k = 0 then 0
  else if k % 2 = 1 then 0
  else ctz (k / 2) + 1
decreasing_by exact Nat.div_lt_self (Nat.pos_of_ne_zero (by assumption)) (by norm_num)

/-- pink (noise.ts lines 42-65): one white draw, advance the cycling
counter, replace the row selected by the trailing zeros of the old counter
(when below 16), and return (sum/16 + white)/2. -/
def NoiseGenerator.pink (g : NoiseGenerator) (rand : ℝ) : ℝ × NoiseGenerator :=
  let white := 2 * rand - 1
  let k := g.pinkIndex
  let g1 := { g with pinkIndex := (g.pinkIndex + 1) % 65536 }
  let numZeros := ctz k
  let g2 :=
    if h : numZeros < 16 then
      { g1 with
        pinkRunningSum := g1.pinkRunningSum - g1.pinkRows ⟨numZeros, h⟩ + white
        pinkRows := Function.update g1.pinkRows ⟨numZeros, h⟩ white }
    else g1
  ((g2.pinkRunningSum / 16 + white) / 2, g2)

/-- next (noise.ts lines 84-95); white is Math.random()*2-1, brown the
leaky integrator scaled by 3.5. -/
def NoiseGenerator.next (g : NoiseGenerator) (rand : ℝ) : ℝ × NoiseGenerator :=
  match g.noiseType with
  | NoiseType.white => (2 * rand - 1, g)
  | NoiseType.pink => g.pink rand
  | NoiseType.brown =>
    let b := (g.brownLastValue + (2 * rand - 1) * 0.02) / 1.02
    (b * 3.5, { g with brownLastValue := b })
  | NoiseType.off => (0, g)

/-- reset (noise.ts lines 100-107): redraw the rows, recompute the sum by
reduction, zero the counter and the brown state. -/
def NoiseGenerator.reset (g : NoiseGenerator) (rand : Fin 16 → ℝ) : NoiseGenerator :=
  { g with
    pinkRows := fun i => 2 * rand i - 1
    pinkRunningSum := ∑ i : Fin 16, (2 * rand i - 1)
    pinkIndex := 0
    brownLastValue := 0 }

/-- The pink-noise state invariant of the claim: the cached running sum is
the sum of the sixteen rows, and every row is in [-1, 1]. -/
def PinkInv (g : NoiseGenerator) : Prop :=
  g.pinkRunningSum = ∑ i : Fin 16, g.pinkRows i ∧ ∀ i, |g.pinkRows i| ≤ 1

/-- C10: the pink state invariant (running sum equals the row sum, rows in
[-1,1]) holds after construction, is preserved by next() in every noise
mode and by reset() (with random draws in [0,1]), and under it every pink
output (sum/16 + white)/2 lies in [-1, 1]. -/
theorem c10_pink_invariant :
    (∀ rand : Fin 16 → ℝ, (∀ i, 0 ≤ rand i ∧ rand i ≤ 1) →
      PinkInv (mkNoiseGenerator rand)) ∧
    (∀ (g : NoiseGenerator) (r : ℝ), PinkInv g → 0 ≤ r → r ≤ 1 →
      PinkInv ((g.next r).2)) ∧
    (∀ (g : NoiseGenerator) (rand : Fin 16 → ℝ),
      (∀ i, 0 ≤ rand i ∧ rand i ≤ 1) → PinkInv (g.reset rand)) ∧
    (∀ (g : NoiseGenerator) (r : ℝ), PinkInv g → 0 ≤ r → r ≤ 1 →
      g.noiseType = NoiseType.pink → |(g.next r).1| ≤ 1) := by
  have hrow : ∀ r : ℝ, 0 ≤ r → r ≤ 1 → |2 * r - 1| ≤ 1 := by
    intro r h0 h1
    rw [abs_le]
    constructor <;> linarith
  have hmk : ∀ rand : Fin 16 → ℝ, (∀ i, 0 ≤ rand i ∧ rand i ≤ 1) →
      PinkInv (mkNoiseGenerator rand) := by
    intro rand h
    exact ⟨rfl, fun i => hrow (rand i) (h i).1 (h i).2⟩
  have hpink : ∀ (g : NoiseGenerator) (r : ℝ), PinkInv g → 0 ≤ r → r ≤ 1 →
      PinkInv ((g.pink r).2) := by
    intro g r hg h0 h1
    rw [NoiseGenerator.pink]
    by_cases h : ctz g.pinkIndex < 16
    · rw [dif_pos h]
      constructor
      · dsimp only
        rw [Finset.sum_update_of_mem (Finset.mem_univ _)]
        rw [hg.1, ← Finset.erase_eq]
        rw [← Finset.sum_erase_add Finset.univ _ (Finset.mem_univ ⟨ctz g.pinkIndex, h⟩)]
        ring
      · intro i
        dsimp only
        by_cases hij : i = ⟨ctz g.pinkIndex, h⟩
        · rw [hij, Function.update_same]
          exact hrow r h0 h1
        · rw [Function.update_noteq hij]
          exact hg.2 i
    · rw [dif_neg h]
      exact hg
  have hnext : ∀ (g : NoiseGenerator) (r : ℝ), PinkInv g → 0 ≤ r → r ≤ 1 →
      PinkInv ((g.next r).2) := by
    intro g r hg h0 h1
    rw [NoiseGenerator.next]
    match hty : g.noiseType with
    | NoiseType.white => exact hg
    | NoiseType.pink => exact hpink g r hg h0 h1
    | NoiseType.brown => exact hg
    | NoiseType.off => exact hg
  refine ⟨hmk, hnext, ?_, ?_⟩
  · intro g rand h
    exact ⟨rfl, fun i => hrow (rand i) (h i).1 (h i).2⟩
  · intro g r hg h0 h1 hty
    rw [NoiseGenerator.next, hty]
    have hg2 := hpink g r hg h0 h1
    have hsum : |((g.pink r).2).pinkRunningSum| ≤ 16 := by
      rw [hg2.1]
      calc |∑ i : Fin 16, ((g.pink r).2).pinkRows i|
          ≤ ∑ i : Fin 16, |((g.pink r).2).pinkRows i| :=
            Finset.abs_sum_le_sum_abs _ _
        _ ≤ ∑ _i : Fin 16, (1 : ℝ) := Finset.sum_le_sum fun i _ => hg2.2 i
        _ = 16 := by simp
    have hout : (g.pink r).1 = (((g.pink r).2).pinkRunningSum / 16 + (2 * r - 1)) / 2 := by
      rw [NoiseGenerator.pink]
    rw [hout, abs_le]
    rw [abs_le] at hsum
    constructor
    · have := hsum.1
      nlinarith
    · have := hsum.2
      nlinarith

/-- Witness for c10_pink_invariant at concrete draws (all 1/2): the
constructed generator satisfies the invariant, one pink next() preserves it
and returns a bounded sample. -/
theorem c10_pink_invariant_witness :
    PinkInv (mkNoiseGenerator fun _ => 1 / 2) ∧
    PinkInv ((NoiseGenerator.next
      { mkNoiseGenerator (fun _ => 1 / 2) with noiseType := NoiseType.pink } (1 / 2)).2) ∧
    |(NoiseGenerator.next
      { mkNoiseGenerator (fun _ => 1 / 2) with noiseType := NoiseType.pink } (1 / 2)).1| ≤ 1 := by
  have hbase : PinkInv (mkNoiseGenerator fun _ => 1 / 2) :=
    c10_pink_invariant.1 (fun _ => 1 / 2) (fun _ => by norm_num)
  have hbase2 : PinkInv { mkNoiseGenerator (fun _ => 1 / 2) with noiseType := NoiseType.pink } := by
    exact ⟨hbase.1, hbase.2⟩
  refine ⟨hbase, ?_, ?_⟩
  · exact c10_pink_invariant.2.1 _ (1 / 2) hbase2 (by norm_num) (by norm_num)
  · exact c10_pink_invariant.2.2.2 _ (1 / 2) hbase2 (by norm_num) (by norm_num) rfl

/-! ## LongReverb impulse response generation (src/unnamed/part_003)

Math.random() is again an explicit noise stream.  The chunked, setTimeout
driven loop of fillIRBuffer computes exactly the same samples as a single
pass, so it is embedded as one recursion over the sample index. -/

/-- The peak scan of normalizeBuffer (part_003 lines 209-213): running
maximum of |left[i]| and |right[i]| starting from 0. -/
def irMaxVal (left right : List ℝ) : ℝ :=
  (left.zip right).foldl (fun m p => max (max m |p.1|) |p.2|) 0

/-- normalizeBuffer (part_003 lines 208-222): when the peak is positive,
scale both channels by 0.7/peak to leave headroom. -/
def normalizeBuffer (left right : List ℝ) : List ℝ × List ℝ :=
  let maxVal := irMaxVal left right
  if 0 < maxVal then
    (left.map fun x => x * (0.7 / maxVal), right.map fun x => x * (0.7 / maxVal))
  else (left, right)

/-- The per-sample body of fillIRBuffer's loop (part_003 lines 144-187),
iterating from sample index i for a given remaining count, carrying the
two one-pole damping filter states.  decayCoeff = ln(0.001)/decay. -/
def fillIRFrom (decay damping stereoWidth sampleRate : ℝ)
    (noiseL noiseR : ℕ → ℝ) : ℕ → ℕ → ℝ → ℝ → List ℝ × List ℝ
  | _, 0, _, _ => ([], [])
  | i, n + 1, lpStateL, lpStateR =>
    let t := (i : ℝ) / sampleRate
    let decayCoeff := Real.log 0.001 / decay
    let envelope := Real.exp (decayCoeff * t)
    let nL := 2 * noiseL i - 1
    let nR := 2 * noiseR i - 1
    let lpCoeff := 1 - damping * min 1 (t / decay)
    let lpCutoff := 0.1 + 0.9 * lpCoeff
    let lpL := lpStateL + lpCutoff * (nL - lpStateL)
    let lpR := lpStateR + lpCutoff * (nR - lpStateR)
    let sampleL := lpL * envelope
    let sampleR := lpR * envelope
    let mid := (sampleL + sampleR) * 0.5
    let side := (sampleL - sampleR) * 0.5
    let rest := fillIRFrom decay damping stereoWidth sampleRate noiseL noiseR (i + 1) n lpL lpR
    ((mid + side * stereoWidth) :: rest.1, (mid - side * stereoWidth) :: rest.2)

/-- Buffer length used by generateIR (part_003 line 112):
ceil(sampleRate * decayTime). -/
def generateIRSamples (sampleRate decay : ℝ) : ℕ := ⌈sampleRate * decay⌉₊

/-- fillIRBuffer (part_003 lines 133-203): generate the raw IR from sample
0 with zero filter state, then normalize it. -/
def fillIRBuffer (decay damping stereoWidth sampleRate : ℝ)
    (noiseL noiseR : ℕ → ℝ) (numSamples : ℕ) : List ℝ × List ℝ :=
  let raw := fillIRFrom decay damping stereoWidth sampleRate noiseL noiseR 0 numSamples 0 0
  normalizeBuffer raw.1 raw.2

theorem le_foldl_irmax (l : List (ℝ × ℝ)) (a : ℝ) :
    a ≤ l.foldl (fun m p => max (max m |p.1|) |p.2|) a := by
  induction l generalizing a with
  | nil => simp
  | cons h t ih =>
    simp only [List.foldl_cons]
    exact le_trans (le_trans (le_max_left a _) (le_max_left _ _)) (ih _)

theorem irMaxVal_nonneg (left right : List ℝ) : 0 ≤ irMaxVal left right :=
  le_foldl_irmax _ 0

theorem foldl_irmax_scale (c : ℝ) (hc : 0 ≤ c) (l : List (ℝ × ℝ)) (a : ℝ) :
    (l.map fun p => (p.1 * c, p.2 * c)).foldl
        (fun m p => max (max m |p.1|) |p.2|) (c * a)
      = c * l.foldl (fun m p => max (max m |p.1|) |p.2|) a := by
  induction l generalizing a with
  | nil => simp
  | cons h t ih =>
    simp only [List.map_cons, List.foldl_cons]
    rw [← ih]
    congr 1
    rw [abs_mul, abs_mul, abs_of_nonneg hc]
    rw [mul_comm |h.1| c, mul_comm |h.2| c]
    rw [← mul_max_of_nonneg _ _ hc, ← mul_max_of_nonneg _ _ hc]

/-- Scaling both channels by a nonnegative factor scales the peak. -/
theorem irMaxVal_scale (c : ℝ) (hc : 0 ≤ c) (left right : List ℝ) :
    irMaxVal (left.map fun x => x * c) (right.map fun x => x * c)
      = c * irMaxVal left right := by
  rw [irMaxVal, irMaxVal]
  rw [List.zip_map]
  have h1 : (Prod.map (fun x => x * c) fun x => x * c)
      = fun p : ℝ × ℝ => (p.1 * c, p.2 * c) := by
    funext p
    rfl
  rw [h1]
  have h2 := foldl_irmax_scale c hc (left.zip right) 0
  rw [mul_zero] at h2
  exact h2

/-- After normalizeBuffer on a buffer with a positive peak, the peak is
exactly the 0.7 headroom target. -/
theorem normalizeBuffer_peak (left right : List ℝ)
    (h : 0 < irMaxVal left right) :
    irMaxVal (normalizeBuffer left right).1 (normalizeBuffer left right).2
      = 0.7 := by
  rw [normalizeBuffer]
  rw [if_pos h]
  dsimp only
  rw [irMaxVal_scale (0.7 / irMaxVal left right) (by positivity) left right]
  field_simp

/-- C5: for any decayTime in [1,30], damping in [0,1], stereoWidth in
[0,1], any sample rate and any noise streams, the generated and normalized
stereo IR has peak max(|left|,|right|) at most 0.7, and the peak is
positive whenever the raw buffer before normalization is not identically
zero (its peak is positive). -/
theorem c5_ir_normalization (decay damping stereoWidth sampleRate : ℝ)
    (noiseL noiseR : ℕ → ℝ)
    (hd1 : 1 ≤ decay) (hd2 : decay ≤ 30)
    (hda1 : 0 ≤ damping) (hda2 : damping ≤ 1)
    (hw1 : 0 ≤ stereoWidth) (hw2 : stereoWidth ≤ 1) :
    irMaxVal
        (fillIRBuffer decay damping stereoWidth sampleRate noiseL noiseR
          (generateIRSamples sampleRate decay)).1
        (fillIRBuffer decay damping stereoWidth sampleRate noiseL noiseR
          (generateIRSamples sampleRate decay)).2 ≤ 0.7 ∧
      (0 < irMaxVal
          (fillIRFrom decay damping stereoWidth sampleRate noiseL noiseR 0
            (generateIRSamples sampleRate decay) 0 0).1
          (fillIRFrom decay damping stereoWidth sampleRate noiseL noiseR 0
            (generateIRSamples sampleRate decay) 0 0).2 →
        0 < irMaxVal
          (fillIRBuffer decay damping stereoWidth sampleRate noiseL noiseR
            (generateIRSamples sampleRate decay)).1
          (fillIRBuffer decay damping stereoWidth sampleRate noiseL noiseR
            (generateIRSamples sampleRate decay)).2) := by
  rw [fillIRBuffer]
  by_cases hm : 0 < irMaxVal
      (fillIRFrom decay damping stereoWidth sampleRate noiseL noiseR 0
        (generateIRSamples sampleRate decay) 0 0).1
      (fillIRFrom decay damping stereoWidth sampleRate noiseL noiseR 0
        (generateIRSamples sampleRate decay) 0 0).2
  · rw [normalizeBuffer_peak _ _ hm]
    exact ⟨by norm_num, fun _ => by norm_num⟩
  · have hz := irMaxVal_nonneg
      (fillIRFrom decay damping stereoWidth sampleRate noiseL noiseR 0
        (generateIRSamples sampleRate decay) 0 0).1
      (fillIRFrom decay damping stereoWidth sampleRate noiseL noiseR 0
        (generateIRSamples sampleRate decay) 0 0).2
    rw [normalizeBuffer, if_neg hm]
    exact ⟨by linarith [not_lt.mp hm], fun hpos => absurd hpos hm⟩

/-- Witness for c5_ir_normalization at concrete parameters. -/
theorem c5_ir_normalization_witness :
    irMaxVal
        (fillIRBuffer 8 0.3 0.8 2 (fun _ => 1 / 2) (fun _ => 1 / 2)
          (generateIRSamples 2 8)).1
        (fillIRBuffer 8 0.3 0.8 2 (fun _ => 1 / 2) (fun _ => 1 / 2)
          (generateIRSamples 2 8)).2 ≤ 0.7 :=
  (c5_ir_normalization 8 0.3 0.8 2 (fun _ => 1 / 2) (fun _ => 1 / 2)
    (by norm_num) (by norm_num) (by norm_num) (by norm_num) (by norm_num)
    (by norm_num)).1

/-! ## LongReverb node state and setters (src/unnamed/part_003)

The audio-graph side of the class: the parameter record, the gain/delay
targets the update helpers write, and the installed-IR bookkeeping.  The
asynchronous generateIR is modelled by its net state effect: it snapshots
the current decayTime/damping/stereoWidth into the installed IR and bumps a
regeneration counter, guarded by the isGenerating flag exactly as in the
source (line 107). -/

/-- LongReverbParams (part_003 lines 15-21). -/
structure LongReverbParams where
  decayTime : ℝ
  preDelay : ℝ
  damping : ℝ
  dryWet : ℝ
  stereoWidth : ℝ

/-- Observable state of the LongReverb node (part_003 lines 23-54): current
parameters, the isGenerating guard, the parameters the installed IR was
generated from, a counter of completed regenerations, and the downstream
gain/delay targets. -/
structure LongReverb where
  params : LongReverbParams
  isGenerating : Bool
  irDecayTime : ℝ
  irDamping : ℝ
  irStereoWidth : ℝ
  regenCount : ℕ
  dryGainTarget : ℝ
  wetGainTarget : ℝ
  preDelayTime : ℝ
  leftGainTarget : ℝ
  rightGainTarget : ℝ

/-- generateIR (part_003 lines 106-128), reduced to its state effect: a
no-op while a generation is in flight, otherwise install an IR built from
the current decayTime/damping/stereoWidth. -/
def LongReverb.generateIR (r : LongReverb) : LongReverb :=
  if r.isGenerating then r
  else
    { r with
      irDecayTime := r.params.decayTime
      irDamping := r.params.damping
      irStereoWidth := r.params.stereoWidth
      regenCount := r.regenCount + 1 }

/-- updateMix (part_003 lines 227-234). -/
def LongReverb.updateMix (r : LongReverb) : LongReverb :=
  { r with dryGainTarget := 1 - r.params.dryWet, wetGainTarget := r.params.dryWet }

/-- updatePreDelay (part_003 lines 239-242). -/
def LongReverb.updatePreDelay (r : LongReverb) : LongReverb :=
  { r with preDelayTime := r.params.preDelay / 1000 }

/-- updateStereoWidth (part_003 lines 247-257). -/
def LongReverb.updateStereoWidth (r : LongReverb) : LongReverb :=
  { r with
    leftGainTarget := 0.5 + r.params.stereoWidth * 0.5
    rightGainTarget := 0.5 + r.params.stereoWidth * 0.5 }

/-- setDecayTime (part_003 lines 279-282): clamp to [1,30], regenerate. -/
def LongReverb.setDecayTime (r : LongReverb) (seconds : ℝ) : LongReverb :=
  ({ r with params := { r.params with decayTime := max 1 (min 30 seconds) } }).generateIR

/-- setPreDelay (part_003 lines 287-290): clamp to [0,200], no regeneration. -/
def LongReverb.setPreDelay (r : LongReverb) (ms : ℝ) : LongReverb :=
  ({ r with params := { r.params with preDelay := max 0 (min 200 ms) } }).updatePreDelay

/-- setDamping (part_003 lines 296-299): clamp to [0,1], regenerate. -/
def LongReverb.setDamping (r : LongReverb) (value : ℝ) : LongReverb :=
  ({ r with params := { r.params with damping := max 0 (min 1 value) } }).generateIR

/-- setDryWet (part_003 lines 304-307): clamp to [0,1], no regeneration. -/
def LongReverb.setDryWet (r : LongReverb) (value : ℝ) : LongReverb :=
  ({ r with params := { r.params with dryWet := max 0 (min 1 value) } }).updateMix

/-- setStereoWidth (part_003 lines 312-317): clamp to [0,1], adjust the
gain balance, then regenerate. -/
def LongReverb.setStereoWidth (r : LongReverb) (value : ℝ) : LongReverb :=
  (({ r with params := { r.params with stereoWidth := max 0 (min 1 value) } }).updateStereoWidth).generateIR

/-- setEnabled (part_003 lines 391-405) touches only the mix gains; it is
included for the engine model. -/
def LongReverb.setEnabled (r : LongReverb) (enabled : Bool) : LongReverb :=
  if enabled then
    { r with dryGainTarget := 1 - r.params.dryWet, wetGainTarget := r.params.dryWet }
  else
    { r with dryGainTarget := 1, wetGainTarget := 0 }

/-- C8: setDryWet and setPreDelay never regenerate the impulse response
(the installed IR, its generating parameters, and the stored
decayTime/damping/stereoWidth are unchanged), while setDecayTime,
setDamping and setStereoWidth each trigger exactly one regeneration
whenever no generation is already in flight. -/
theorem c8_regeneration_triggers (r : LongReverb) (x : ℝ) :
    ((r.setDryWet x).irDecayTime = r.irDecayTime ∧
      (r.setDryWet x).irDamping = r.irDamping ∧
      (r.setDryWet x).irStereoWidth = r.irStereoWidth ∧
      (r.setDryWet x).regenCount = r.regenCount ∧
      (r.setDryWet x).params.decayTime = r.params.decayTime ∧
      (r.setDryWet x).params.damping = r.params.damping ∧
      (r.setDryWet x).params.stereoWidth = r.params.stereoWidth) ∧
    ((r.setPreDelay x).irDecayTime = r.irDecayTime ∧
      (r.setPreDelay x).irDamping = r.irDamping ∧
      (r.setPreDelay x).irStereoWidth = r.irStereoWidth ∧
      (r.setPreDelay x).regenCount = r.regenCount ∧
      (r.setPreDelay x).params.decayTime = r.params.decayTime ∧
      (r.setPreDelay x).params.damping = r.params.damping ∧
      (r.setPreDelay x).params.stereoWidth = r.params.stereoWidth) ∧
    (r.isGenerating = false →
      (r.setDecayTime x).regenCount = r.regenCount + 1 ∧
      (r.setDamping x).regenCount = r.regenCount + 1 ∧
      (r.setStereoWidth x).regenCount = r.regenCount + 1) := by
  refine ⟨⟨rfl, rfl, rfl, rfl, rfl, rfl, rfl⟩,
    ⟨rfl, rfl, rfl, rfl, rfl, rfl, rfl⟩, fun hg => ⟨?_, ?_, ?_⟩⟩
  · simp [LongReverb.setDecayTime, LongReverb.generateIR, hg]
  · simp [LongReverb.setDamping, LongReverb.generateIR, hg]
  · simp [LongReverb.setStereoWidth, LongReverb.generateIR,
      LongReverb.updateStereoWidth, hg]

/-- A concrete LongReverb state with the constructor defaults of part_003
lines 41-47 and no generation in flight. -/
def mkLongReverb : LongReverb :=
  { params := { decayTime := 8, preDelay := 20, damping := 0.3, dryWet := 0.3, stereoWidth := 0.8 }
    isGenerating := false
    irDecayTime := 8, irDamping := 0.3, irStereoWidth := 0.8
    regenCount := 1
    dryGainTarget := 0.7, wetGainTarget := 0.3, preDelayTime := 0.02
    leftGainTarget := 0.9, rightGainTarget := 0.9 }

/-- Witness for c8_regeneration_triggers at the default state. -/
theorem c8_regeneration_triggers_witness :
    (mkLongReverb.setDryWet 0.5).regenCount = mkLongReverb.regenCount ∧
      (mkLongReverb.setPreDelay 50).regenCount = mkLongReverb.regenCount ∧
      (mkLongReverb.setDecayTime 12).regenCount = mkLongReverb.regenCount + 1 :=
  ⟨(c8_regeneration_triggers mkLongReverb 0.5).1.2.2.2.1,
    (c8_regeneration_triggers mkLongReverb 50).2.1.2.2.2.1,
    ((c8_regeneration_triggers mkLongReverb 12).2.2 rfl).1⟩

/-! ## Chorus (src/src/fx/Chorus.ts), Reverb and EQ (src/unnamed/part_004)

Only the parameter-state side of these audio-graph nodes is needed: each
setter writes the stored field and the ramped AudioParam targets. -/

/-- Parameter state of the Chorus node (Chorus.ts). -/
structure ChorusState where
  rate : ℝ
  depth : ℝ
  mix : ℝ
  enabled : Bool
  lfoLFreqTarget : ℝ
  lfoRFreqTarget : ℝ
  lfoGainLTarget : ℝ
  lfoGainRTarget : ℝ
  dryGainTarget : ℝ
  wetGainLTarget : ℝ
  wetGainRTarget : ℝ

/-- Chorus.setRate (Chorus.ts lines 97-102): right LFO detuned by 1.1. -/
def ChorusState.setRate (c : ChorusState) (rate : ℝ) : ChorusState :=
  { c with rate := rate, lfoLFreqTarget := rate, lfoRFreqTarget := rate * 1.1 }

/-- Chorus.setDepth (Chorus.ts lines 104-109). -/
def ChorusState.setDepth (c : ChorusState) (depth : ℝ) : ChorusState :=
  { c with
    depth := depth
    lfoGainLTarget := depth * 0.005
    lfoGainRTarget := depth * 0.005 }

/-- Chorus.setMix (Chorus.ts lines 111-118): the mix is stored first and
the gains are only ramped while enabled. -/
def ChorusState.setMix (c : ChorusState) (mix : ℝ) : ChorusState :=
  let c1 := { c with mix := mix }
  if !c1.enabled then c1
  else { c1 with dryGainTarget := 1 - mix, wetGainLTarget := mix, wetGainRTarget := mix }

/-- Chorus.setEnabled (Chorus.ts lines 120-135): full-dry bypass when
disabled. -/
def ChorusState.setEnabled (c : ChorusState) (enabled : Bool) : ChorusState :=
  let c1 := { c with enabled := enabled }
  if enabled then
    { c1 with
      dryGainTarget := 1 - c1.mix
      wetGainLTarget := c1.mix
      wetGainRTarget := c1.mix }
  else { c1 with dryGainTarget := 1, wetGainLTarget := 0, wetGainRTarget := 0 }

/-- Parameter state of the short Reverb node (part_004). -/
structure ReverbState where
  decay : ℝ
  mix : ℝ
  lowCut : ℝ
  irDecay : ℝ
  dryGainTarget : ℝ
  wetGainTarget : ℝ
  lowCutFreqTarget : ℝ

/-- Reverb.setDecay (part_004): regenerates the impulse only when the decay
moved by more than 0.5 s. -/
def ReverbState.setDecay (r : ReverbState) (decay : ℝ) : ReverbState :=
  if 0.5 < |decay - r.decay| then { r with decay := decay, irDecay := decay }
  else r

/-- Reverb.setMix (part_004). -/
def ReverbState.setMix (r : ReverbState) (mix : ℝ) : ReverbState :=
  { r with mix := mix, dryGainTarget := 1 - mix * 0.5, wetGainTarget := mix }

/-- Reverb.setLowCut (part_004). -/
def ReverbState.setLowCut (r : ReverbState) (freq : ℝ) : ReverbState :=
  { r with lowCut := freq, lowCutFreqTarget := freq }

/-- Parameter state of the EQ node (part_004 EQ class). -/
structure EQState where
  highPassFreqTarget : ℝ
  lowShelfGainTarget : ℝ
  highShelfGainTarget : ℝ

/-! ## SynthEngine.setParam (src/unnamed/part_008, lines 309-335) -/

/-- A TypeScript number | string | boolean parameter value. -/
inductive PValue
  | num (x : ℝ)
  | str (s : String)
  | bool (b : Bool)

/-- The unchecked `value as number` cast of setParam: only ever exercised
on the recognized numeric parameter names, which are called with numbers. -/
def PValue.asNum : PValue → ℝ
  | PValue.num x => x
  | _ => 0

/-- The unchecked `value as boolean` cast of setParam. -/
def PValue.asBool : PValue → Bool
  | PValue.bool b => b
  | _ => false

/-- The effect-routing state owned by SynthEngine (part_008 lines 30-37):
the four effect nodes and the currentParams dictionary. -/
structure SynthEngineFx where
  chorus : ChorusState
  reverb : ReverbState
  longReverb : LongReverb
  eq : EQState
  currentParams : List (String × PValue)

/-- Writing one key of the currentParams record. -/
def setCurrentParam (m : List (String × PValue)) (name : String) (v : PValue) :
    List (String × PValue) :=
  if m.any (fun p => p.1 = name) then
    m.map fun p => if p.1 = name then (name, v) else p
  else m ++ [(name, v)]

/-- setParam (part_008 lines 309-335): always store the value in
currentParams, then route by prefix and exact name to the effect setters.
The EQ is never touched by setParam. -/
def SynthEngineFx.setParam (e : SynthEngineFx) (name : String) (value : PValue) :
    SynthEngineFx :=
  let e1 := { e with currentParams := setCurrentParam e.currentParams name value }
  let e2 :=
    if name.startsWith "chorus" then
      let c := e1.chorus
      let c := if name = "chorusRate" then c.setRate value.asNum else c
      let c := if name = "chorusDepth" then c.setDepth value.asNum else c
      let c := if name = "chorusMix" then c.setMix value.asNum else c
      let c := if name = "chorusEnabled" then c.setEnabled value.asBool else c
      { e1 with chorus := c }
    else e1
  let e3 :=
    if name.startsWith "reverb" then
      let r := e2.reverb
      let r := if name = "reverbDecay" then r.setDecay value.asNum else r
      let r := if name = "reverbMix" then r.setMix value.asNum else r
      let r := if name = "reverbLowCut" then r.setLowCut value.asNum else r
      { e2 with reverb := r }
    else e2
  if name.startsWith "longReverb" then
    let l := e3.longReverb
    let l := if name = "longReverbDecay" then l.setDecayTime value.asNum else l
    let l := if name = "longReverbPreDelay" then l.setPreDelay value.asNum else l
    let l := if name = "longReverbDamping" then l.setDamping value.asNum else l
    let l := if name = "longReverbDryWet" then l.setDryWet value.asNum else l
    let l := if name = "longReverbWidth" then l.setStereoWidth value.asNum else l
    let l := if name = "longReverbEnabled" then l.setEnabled value.asBool else l
    { e3 with longReverb := l }
  else e3

/-- The parameter names setParam dispatches on (part_008 lines 313-334). -/
def recognizedParamNames : List String :=
  ["chorusRate", "chorusDepth", "chorusMix", "chorusEnabled",
    "reverbDecay", "reverbMix", "reverbLowCut",
    "longReverbDecay", "longReverbPreDelay", "longReverbDamping",
    "longReverbDryWet", "longReverbWidth", "longReverbEnabled"]

/-- C9: setParam is total (it never raises), and a call with a name outside
the recognized parameter set leaves every effect's state — chorus, reverb,
long reverb and EQ — unchanged; only the currentParams dictionary records
the value. -/
theorem c9_unknown_param_ignored (e : SynthEngineFx) (name : String)
    (value : PValue) (h : name ∉ recognizedParamNames) :
    (e.setParam name value).chorus = e.chorus ∧
    (e.setParam name value).reverb = e.reverb ∧
    (e.setParam name value).longReverb = e.longReverb ∧
    (e.setParam name value).eq = e.eq := by
  simp only [recognizedParamNames, List.mem_cons, List.not_mem_nil, or_false,
    not_or] at h
  obtain ⟨h1, h2, h3, h4, h5, h6, h7, h8, h9, h10, h11, h12, h13⟩ := h
  simp only [SynthEngineFx.setParam, if_neg h1, if_neg h2, if_neg h3,
    if_neg h4, if_neg h5, if_neg h6, if_neg h7, if_neg h8, if_neg h9,
    if_neg h10, if_neg h11, if_neg h12, if_neg h13]
  split_ifs <;> exact ⟨rfl, rfl, rfl, rfl⟩

/-- A concrete effect-routing state for the C9 witness. -/
def mkSynthEngineFx : SynthEngineFx :=
  { chorus :=
      { rate := 0.5, depth := 0.3, mix := 0.25, enabled := true
        lfoLFreqTarget := 0.5, lfoRFreqTarget := 0.55
        lfoGainLTarget := 0.0015, lfoGainRTarget := 0.0015
        dryGainTarget := 0.75, wetGainLTarget := 0.25, wetGainRTarget := 0.25 }
    reverb :=
      { decay := 4, mix := 0.25, lowCut := 300, irDecay := 4
        dryGainTarget := 0.875, wetGainTarget := 0.25, lowCutFreqTarget := 300 }
    longReverb := mkLongReverb
    eq := { highPassFreqTarget := 20, lowShelfGainTarget := 0, highShelfGainTarget := 0 }
    currentParams := [] }

/-- Witness for c9_unknown_param_ignored at an unrecognized name. -/
theorem c9_unknown_param_ignored_witness :
    (mkSynthEngineFx.setParam "portamentoTime" (PValue.num 3)).chorus
        = mkSynthEngineFx.chorus ∧
    (mkSynthEngineFx.setParam "portamentoTime" (PValue.num 3)).reverb
        = mkSynthEngineFx.reverb ∧
    (mkSynthEngineFx.setParam "portamentoTime" (PValue.num 3)).longReverb
        = mkSynthEngineFx.longReverb ∧
    (mkSynthEngineFx.setParam "portamentoTime" (PValue.num 3)).eq
        = mkSynthEngineFx.eq :=
  c9_unknown_param_ignored mkSynthEngineFx "portamentoTime" (PValue.num 3)
    (by decide)

/-! ## SynthEngine voice allocation (src/unnamed/part_008) -/

/-- A voice map entry (part_008 lines 12-17): note, start time and active
flag; the node handle has no bearing on voice counting. -/
structure EngineVoice where
  note : ℕ
  startTime : ℕ
  active : Bool
deriving DecidableEq

/-- The engine voice-allocation state (part_008 lines 19-22): the
note-keyed voice Map (insertion ordered, unique keys) and a clock
supplying startTime values. -/
structure SynthEngine where
  voices : List (ℕ × EngineVoice)
  now : ℕ
deriving DecidableEq

/-- maxVoices (part_008 line 23): declared as 12 and never read anywhere
in the class. -/
def maxVoices : ℕ := 12

/-- Map.set on the note-keyed voice map: replace an existing key or
append a new entry. -/
def voicesSet (m : List (ℕ × EngineVoice)) (k : ℕ) (v : EngineVoice) :
    List (ℕ × EngineVoice) :=
  if m.any (fun p => p.1 = k) then m.map fun p => if p.1 = k then (k, v) else p
  else m ++ [(k, v)]

/-- noteOff (part_008 lines 121-136): mark the voice inactive and start its
release.  The deletion from the map happens only in a setTimeout callback
release-time seconds later (cleanupFallbackVoice, line 301), so the call
itself does not shrink the map. -/
def SynthEngine.noteOff (e : SynthEngine) (note : ℕ) : SynthEngine :=
  { e with voices := e.voices.map fun p =>
      if p.1 = note then (p.1, { p.2 with active := false }) else p }

/-- noteOn (part_008 lines 103-116): if the note is already playing,
release it first; then unconditionally create a fallback voice and store
it under the note.  No voice-count check occurs anywhere in the path. -/
def SynthEngine.noteOn (e : SynthEngine) (note : ℕ) : SynthEngine :=
  let e1 := if e.voices.any (fun p => p.1 = note) then e.noteOff note else e
  { e1 with
    voices := voicesSet e1.voices note { note := note, startTime := e1.now, active := true }
    now := e1.now + 1 }

/-- C3 (code evaluation): pressing the thirteen distinct notes 0..12 on a
fresh engine leaves thirteen voices allocated, one beyond maxVoices = 12:
noteOn never consults maxVoices and steals no voice, so the polyphony cap
of the claim is not enforced. -/
theorem c3_voice_cap_violated :
    ((List.range 13).foldl SynthEngine.noteOn ⟨[], 0⟩).voices.length = 13 ∧
    maxVoices < ((List.range 13).foldl SynthEngine.noteOn ⟨[], 0⟩).voices.length := by
  constructor
  · rfl
  · decide

end

end SynthProto
